import Mathlib

/-!
Shallow embedding of `src/index.ts` of masonhipp/cf-image-resize: a
Cloudflare worker that validates a base64-encoded source-image URL,
derives transformation options from the query string, negotiates an
output format from the `Accept` header, runs an edge-cache / R2 /
transformation-fetch waterfall and assembles the response.

Line references in doc comments are to `src/index.ts`.
-/

namespace CF

/-- Raw image payloads (`ArrayBuffer` contents) as byte lists. -/
abbrev Bytes := List Nat

/-- A JavaScript value stored in the `resizeOptions` object: every value the
worker stores there is either a string or `undefined` (`none`). -/
abbrev JsVal := Option String

/-- How a `JsVal` renders inside a template literal: JS prints `undefined`
as the string `undefined`. -/
def showJsVal : JsVal → String
  | none => "undefined"
  | some s => s

/-- JS property assignment `obj[k] = v` on a plain object modelled as an
insertion-ordered association list: an existing key keeps its position and
gets the new value, a new key is appended. -/
def setOpt : List (String × JsVal) → String → JsVal → List (String × JsVal)
  | [], k, v => [(k, v)]
  | (k', v') :: rest, k, v =>
      if k' = k then (k, v) :: rest else (k', v') :: setOpt rest k v

/-- JS property read: `none` when the property is absent, `some v` (where
`v` may itself be the JS `undefined`, i.e. `none`) when present. -/
def getOpt : List (String × JsVal) → String → Option JsVal
  | [], _ => none
  | (k', v') :: rest, k => if k' = k then some v' else getOpt rest k

/-- Query parameters of the request URL, in order of appearance. -/
abbrev Params := List (String × String)

/-- Models `URLSearchParams.get`: the first value under the name, `null` if absent. -/
def getParam (ps : Params) (n : String) : Option String :=
  (ps.find? (fun p => p.1 = n)).map Prod.snd

/-- Models `URLSearchParams.has`. -/
def hasParam (ps : Params) (n : String) : Bool :=
  (getParam ps n).isSome

/-- The idiom `s || undefined` on a string: the empty string is falsy. -/
def jsOrUndefined (s : String) : JsVal :=
  if s = "" then none else some s

/-- JS truthiness of the `resizeOptions.fit` read on line 34
(`!resizeOptions.fit`): falsy when the property is absent, `undefined`,
or the empty string. -/
def fitFalsy (ro : List (String × JsVal)) : Bool :=
  match getOpt ro "fit" with
  | none => true
  | some none => true
  | some (some s) => s = ""

/-- Holds when `l2.take l1.length = l1`, i.e. `l1` starts `l2`. -/
def startsList (l1 l2 : List Char) : Bool :=
  l2.take l1.length = l1

/-- Substring test, modelling a regex literal such as `/image\/avif/`
matching anywhere in the subject. -/
def hasSub (pat : List Char) : List Char → Bool
  | [] => pat.isEmpty
  | c :: rest => startsList pat (c :: rest) || hasSub pat rest

/-- Line 40: `/image\/avif/.test(accept)`. -/
def acceptsAvif (accept : String) : Bool :=
  hasSub "image/avif".data accept.data

/-- Line 43: `/image\/webp/.test(accept)`. -/
def acceptsWebp (accept : String) : Bool :=
  hasSub "image/webp".data accept.data

/-- Case-insensitive `$`-anchored suffix test on char lists. -/
def endsList (suf l : List Char) : Bool :=
  l.drop (l.length - suf.length) = suf

/-- Anchored case-insensitive suffix check in the style of a `$`-anchored `i` regex: `s` ends with `suf`
up to ASCII case (the suffix is given in lowercase). -/
def endsWithCI (s suf : String) : Bool :=
  endsList suf.data (s.data.map Char.toLower)

/-- Line 56: `/\.(jpe?g|png|gif|webp)$/i.test(pathname)`. -/
def allowedExtension (pathname : String) : Bool :=
  endsWithCI pathname ".jpg" || endsWithCI pathname ".jpeg" ||
  endsWithCI pathname ".png" || endsWithCI pathname ".gif" ||
  endsWithCI pathname ".webp"

/-- Value of a base64 alphabet character. -/
def b64Val (c : Char) : Option Nat :=
  if 'A' ≤ c ∧ c ≤ 'Z' then some (c.toNat - 'A'.toNat)
  else if 'a' ≤ c ∧ c ≤ 'z' then some (c.toNat - 'a'.toNat + 26)
  else if '0' ≤ c ∧ c ≤ '9' then some (c.toNat - '0'.toNat + 52)
  else if c = '+' then some 62
  else if c = '/' then some 63
  else none

/-- Turn a list of 6-bit values into bytes (the core of base64 decoding). -/
def b64Bytes : List Nat → List Nat
  | a :: b :: c :: d :: rest =>
      (a * 4 + b / 16) :: ((b % 16) * 16 + c / 4) :: ((c % 4) * 64 + d) :: b64Bytes rest
  | [a, b] => [a * 4 + b / 16]
  | [a, b, c] => [a * 4 + b / 16, (b % 16) * 16 + c / 4]
  | _ => []

/-- Models the platform `atob` (WHATWG forgiving-base64 decode): strips
ASCII whitespace, strips up to two trailing `=` when the length is a
multiple of four, then fails (`none`, i.e. the platform throws
`InvalidCharacterError`) when the remaining length is `1 mod 4` or any
character is outside the base64 alphabet. The decoded bytes are returned
as a latin1 string. -/
def atob (s : String) : Option String :=
  let cs := s.data.filter
    (fun c => !(c = ' ' || c = '\t' || c = '\n' || c = '\r' || c = '\x0c'))
  let cs :=
    if cs.length % 4 = 0 then
      if cs.reverse.take 2 = ['=', '='] then cs.dropLast.dropLast
      else if cs.reverse.take 1 = ['='] then cs.dropLast
      else cs
    else cs
  if cs.length % 4 = 1 then none
  else if cs.any (fun c => (b64Val c).isNone) then none
  else some (String.mk ((b64Bytes (cs.filterMap b64Val)).map Char.ofNat))

/-- The `(hostname, pathname)` pair destructured from `new URL(imageURL)`
on line 54. -/
structure URLParts where
  hostname : String
  pathname : String
deriving DecidableEq

/-- Models the platform WHATWG `URL` constructor on the http/https
absolute URLs this worker handles: requires an `http://` or `https://`
scheme (otherwise the constructor throws, modelled as `none`), takes the
authority up to the first `/`, `?` or `#`, drops a `:port`, lowercases the
host, and takes the pathname up to the query/fragment (defaulting to
`/`). -/
def parseURL (s : String) : Option URLParts :=
  let rest? : Option (List Char) :=
    if startsList "https://".data s.data then some (s.data.drop 8)
    else if startsList "http://".data s.data then some (s.data.drop 7)
    else none
  match rest? with
  | none => none
  | some rest =>
    let notDelim := fun c => !(c = '/' || c = '?' || c = '#')
    let auth := rest.takeWhile notDelim
    let tail := rest.dropWhile notDelim
    let host := auth.takeWhile (fun c => c ≠ ':')
    if host = [] then none
    else
      let path :=
        match tail with
        | '/' :: _ => tail.takeWhile (fun c => !(c = '?' || c = '#'))
        | _ => ['/']
      some { hostname := String.mk (host.map Char.toLower), pathname := String.mk path }

/-- Line 8: `const maxAge = 180 * 24 * 60 * 60`. -/
def maxAge : Nat := 180 * 24 * 60 * 60

/-- The part of the worker `Env` the handler reads: `CACHE_DURATION ??
maxAge` on line 116. (`CACHE_BUCKET` is modelled as world state, and
`IMAGE_ROOT` / `IMAGE_HOST` are never read by the handler.) -/
structure Env where
  CACHE_DURATION : Option Nat
deriving DecidableEq

/-- A `Response` value: status, status text, headers in insertion order,
and a body that is `null`, a string, or bytes. -/
inductive RespBody where
  | empty
  | text (s : String)
  | bytes (b : Bytes)
deriving DecidableEq

structure Resp where
  status : Nat
  statusText : String
  headers : List (String × String)
  body : RespBody
deriving DecidableEq

/-- Models `new Response(msg, ...)` with an explicit status, used for the validation failures. -/
def textResp (msg : String) (status : Nat) : Resp :=
  { status := status, statusText := "", headers := [], body := .text msg }

/-- The inbound request: its full URL string (`url.toString()`, the edge
cache key), its query parameters (`url.searchParams`) and the value of
`request.headers.get("Accept") || ''` (the only header the handler reads;
all headers are forwarded opaquely to the transformation fetch). -/
structure Req where
  urlString : String
  params : Params
  accept : String

/-- What the single transformation fetch (lines 95-97) does in this run:
the promise rejects, or it completes with an HTTP status and body bytes. -/
inductive TransformOutcome where
  | throws
  | completes (status : Nat) (body : Bytes)
deriving DecidableEq

/-- The external collaborators: `caches.default` keyed by URL string,
the R2 bucket keyed by cache key, and the transformation service. -/
structure World where
  edge : String → Option Resp
  r2 : String → Option Bytes
  transform : TransformOutcome

deriving instance DecidableEq for Except

/-- Everything one run of `handleRequest` did: its result (a returned
`Response` or a thrown error message) and the external effects in order:
edge lookups, R2 lookups, transformation calls (source URL and the
`resizeOptions` forwarded in `cf.image`), R2 writes and edge writes. -/
structure Trace where
  result : Except String Resp
  edgeLookups : List String
  r2Lookups : List String
  transformCalls : List (String × List (String × JsVal))
  r2Writes : List (String × Bytes)
  edgeWrites : List (String × Resp)
deriving DecidableEq

/-- A run that performed no external effect. -/
def pureTrace (r : Except String Resp) : Trace :=
  { result := r, edgeLookups := [], r2Lookups := [], transformCalls := [],
    r2Writes := [], edgeWrites := [] }

/-- Lines 24-46: build `resizeOptions` from the query string and the
`Accept` header: copy `fit`/`w`/`h`/`q` (with `|| undefined`), apply the
`enlarge=true` alias when `resizeOptions.fit` is falsy, then record the
negotiated `format`. -/
def resizeOptionsOf (ps : Params) (accept : String) : List (String × JsVal) :=
  let ro : List (String × JsVal) := []
  let ro := if hasParam ps "fit" then setOpt ro "fit" (jsOrUndefined ((getParam ps "fit").getD "")) else ro
  let ro := if hasParam ps "w" then setOpt ro "width" (jsOrUndefined ((getParam ps "w").getD "")) else ro
  let ro := if hasParam ps "h" then setOpt ro "height" (jsOrUndefined ((getParam ps "h").getD "")) else ro
  let ro := if hasParam ps "q" then setOpt ro "quality" (jsOrUndefined ((getParam ps "q").getD "")) else ro
  let ro := if fitFalsy ro ∧ getParam ps "enlarge" = some "true" then setOpt ro "fit" (some "cover") else ro
  let ro :=
    if acceptsAvif accept then setOpt ro "format" (some "avif")
    else if acceptsWebp accept then setOpt ro "format" (some "webp")
    else ro
  ro

/-- The `type` variable after lines 25 and 40-46: `jpeg` unless the
`Accept` header negotiates `avif` or `webp`. -/
def negotiatedType (accept : String) : String :=
  if acceptsAvif accept then "avif"
  else if acceptsWebp accept then "webp"
  else "jpeg"

/-- The `type` variable after the extension overrides on lines 68-69. -/
def resolvedType (accept pathname : String) : String :=
  let t := negotiatedType accept
  let t := if endsWithCI pathname ".png" then "png" else t
  let t := if endsWithCI pathname ".gif" then "gif" else t
  t

/-- JS `Array.prototype.join(sep)`. -/
def joinStrings (sep : String) : List String → String
  | [] => ""
  | [p] => p
  | p :: rest => p ++ sep ++ joinStrings sep rest

/-- Line 72: `Object.entries(resizeOptions).map(([key, val]) =>
`${key}:${val}`).join('-')`. -/
def optionsKey (ro : List (String × JsVal)) : String :=
  joinStrings "-" (ro.map (fun kv => kv.1 ++ ":" ++ showJsVal kv.2))

/-- Line 73: `const cacheKey = 'test-' + imageURL + optionsKey`. -/
def cacheKeyOf (imageURL : String) (ro : List (String × JsVal)) : String :=
  "test-" ++ imageURL ++ optionsKey ro

/-- JS truthiness of an `ArrayBuffer` object: objects are always truthy,
regardless of `byteLength` — an empty buffer passes both `if (image)`
(line 105) and `if (!image)` (line 111). -/
def arrayBufferTruthy (_ : Bytes) : Bool := true

/-- Lines 114-120: the response headers. -/
def respHeaders (env : Env) (type : String) : List (String × String) :=
  [("cache-control", "public, max-age=" ++ toString (env.CACHE_DURATION.getD maxAge)),
   ("access-control-allow-origin", "*"),
   ("content-security-policy",
     "default-src \x27none\x27; navigate-to \x27none\x27; form-action \x27none\x27"),
   ("content-type", "image/" ++ type)]

/-- Line 122: `new Response(image, { headers })` — status defaults to 200. -/
def imageResp (env : Env) (img : Bytes) (type : String) : Resp :=
  { status := 200, statusText := "", headers := respHeaders env type, body := .bytes img }

/-- Line 99: `new Response(null, { status: 404, statusText: 'Not Found' })`. -/
def notFoundResp : Resp :=
  { status := 404, statusText := "Not Found", headers := [], body := .empty }

/-- Lines 74-127: the cache waterfall, entered after validation with the
decoded `imageURL`, the built `resizeOptions` and the resolved `type`.
Edge lookup by `url.toString()`; on miss, R2 lookup by `cacheKey`; on
miss, the transformation fetch (its thrown rejection returns 404; a
completed response has its body read and — `ArrayBuffer`s being truthy —
unconditionally scheduled for R2 write); the shared tail throws
`Unable to fetch image` when `image` is still undefined (dead in
practice), else assembles the 200 response and schedules the edge write. -/
def waterfall (req : Req) (env : Env) (w : World) (imageURL : String)
    (ro : List (String × JsVal)) (type : String) : Trace :=
  let key := cacheKeyOf imageURL ro
  match w.edge req.urlString with
  | some cached =>
    { result := .ok cached, edgeLookups := [req.urlString], r2Lookups := [],
      transformCalls := [], r2Writes := [], edgeWrites := [] }
  | none =>
    let step : Except Trace (Option Bytes × List (String × List (String × JsVal)) × List (String × Bytes)) :=
      match w.r2 key with
      | some img => .ok (some img, [], [])
      | none =>
        match w.transform with
        | .throws =>
          .error { result := .ok notFoundResp, edgeLookups := [req.urlString],
                   r2Lookups := [key], transformCalls := [(imageURL, ro)],
                   r2Writes := [], edgeWrites := [] }
        | .completes _status body =>
          .ok (some body, [(imageURL, ro)],
               if arrayBufferTruthy body then [(key, body)] else [])
    match step with
    | .error t => t
    | .ok (image?, tcalls, r2w) =>
      match image? with
      | none =>
        { result := .error "Unable to fetch image", edgeLookups := [req.urlString],
          r2Lookups := [key], transformCalls := tcalls, r2Writes := r2w, edgeWrites := [] }
      | some image =>
        let resp := imageResp env image type
        { result := .ok resp, edgeLookups := [req.urlString], r2Lookups := [key],
          transformCalls := tcalls, r2Writes := r2w,
          edgeWrites := [(req.urlString, resp)] }

/-- Lines 20-73 and onward: option derivation, `src` validation (note:
`atob` on line 51 and `new URL` on line 54 run outside the
`try`/`catch`, so their exceptions propagate as thrown errors; the
`catch` on line 63 is unreachable because nothing inside the `try`
throws), extension and host checks, type override, then the waterfall. -/
def handleRequest (req : Req) (env : Env) (w : World) : Trace :=
  let ro := resizeOptionsOf req.params req.accept
  match getParam req.params "src" with
  | none => pureTrace (.ok (textResp "Missing \x22image\x22 value" 400))
  | some srcB64 =>
    if srcB64 = "" then pureTrace (.ok (textResp "Missing \x22image\x22 value" 400))
    else
      match atob srcB64 with
      | none => pureTrace (.error "InvalidCharacterError")
      | some imageURL =>
        match parseURL imageURL with
        | none => pureTrace (.error "Invalid URL")
        | some u =>
          if allowedExtension u.pathname = false then
            pureTrace (.ok (textResp "Disallowed file extension" 400))
          else if u.hostname ≠ "s3.medialoot.com" then
            pureTrace (.ok (textResp "Invalid url for source images" 403))
          else
            waterfall req env w imageURL ro (resolvedType req.accept u.pathname)

/-- Lines 10-18: the module `fetch` wrapper, converting a thrown failure
into `new Response(e.message, { status: 500 })`. -/
def fetchResponse (req : Req) (env : Env) (w : World) : Resp :=
  match (handleRequest req env w).result with
  | .ok r => r
  | .error msg => textResp msg 500

/-- The decoded source URL when `src` is present, truthy and decodes:
the value of `imageURL` on line 51 when execution reaches it. -/
def srcURL? (req : Req) : Option String :=
  match getParam req.params "src" with
  | none => none
  | some srcB64 => if srcB64 = "" then none else atob srcB64

/-- True when validation passes and the run reaches the cache waterfall
(line 74 onwards). -/
def reachesWaterfall (req : Req) : Bool :=
  match srcURL? req with
  | none => false
  | some imageURL =>
    match parseURL imageURL with
    | none => false
    | some u => allowedExtension u.pathname && u.hostname = "s3.medialoot.com"

/-- The cache key a request would use, when it reaches the key
computation on line 73. -/
def requestCacheKey? (req : Req) : Option String :=
  (srcURL? req).map (fun u => cacheKeyOf u (resizeOptionsOf req.params req.accept))

/-- Cleanliness condition under which the option serialization of line 72
is injective: every stored value is a defined string containing no `-`.
(The counterexamples show injectivity fails without it, because values
are concatenated with unescaped `:`/`-` delimiters and `undefined`
serializes as the string `undefined`.) -/
def optsClean (l : List (String × JsVal)) : Prop :=
  ∀ kv ∈ l, ∃ v, kv.2 = some v ∧ '-' ∉ v.data

/-- Char-list counterpart of `joinStrings "-"`, used in the injectivity
proofs. -/
def joinChar : List (List Char) → List Char
  | [] => []
  | [p] => p
  | p :: rest => p ++ '-' :: joinChar rest

/-- The five property names `resizeOptionsOf` can ever insert. -/
def optionNames : List String := ["fit", "width", "height", "quality", "format"]

/-- The serialized `key:value` piece of one option, as a char list. -/
def pieceData (kv : String × JsVal) : List Char :=
  (kv.1 ++ ":" ++ showJsVal kv.2).data

/-! ### Concrete requests and worlds used by closed theorems -/

/-- An environment with `CACHE_DURATION` undefined. -/
def env0 : Env := { CACHE_DURATION := none }

/-- Cold caches; the transformation fetch would reject. -/
def world0 : World :=
  { edge := fun _ => none, r2 := fun _ => none, transform := .throws }

/-- Cold caches; the transformation fetch completes with an empty body. -/
def worldEmptyBody : World :=
  { edge := fun _ => none, r2 := fun _ => none, transform := .completes 200 [] }

/-- Cold caches; the transformation fetch completes with a one-byte body. -/
def worldByteBody : World :=
  { edge := fun _ => none, r2 := fun _ => none, transform := .completes 502 [7] }

/-- A request whose `src=%%%` is present but not base64. -/
def reqBadB64 : Req :=
  { urlString := "https://img.example/?src=%%%", params := [("src", "%%%")], accept := "" }

/-- A request whose `src=bm90YXVybA==` decodes to `notaurl`, not an absolute URL. -/
def reqBadURL : Req :=
  { urlString := "https://img.example/?src=bm90YXVybA==",
    params := [("src", "bm90YXVybA==")], accept := "" }

/-- The base64 encoding of `https://s3.medialoot.com/a.jpg`. -/
def goodSrcB64 : String := "aHR0cHM6Ly9zMy5tZWRpYWxvb3QuY29tL2EuanBn"

/-- The decoded allowed source URL. -/
def goodSrc : String := "https://s3.medialoot.com/a.jpg"

/-- A valid request with no recognized options and no `Accept` match. -/
def reqValid : Req :=
  { urlString := "https://img.example/?src=" ++ goodSrcB64,
    params := [("src", goodSrcB64)], accept := "" }

/-- The cache key `reqValid` derives: no options, so just the namespace
and the source URL. -/
def keyValid : String := "test-" ++ goodSrc

/-- C2 counterexample, first request: `fit=a-width:b`. -/
def reqA : Req :=
  { urlString := "https://img.example/?src=" ++ goodSrcB64 ++ "&fit=a-width:b",
    params := [("src", goodSrcB64), ("fit", "a-width:b")], accept := "" }

/-- C2 counterexample, second request: `fit=a&w=b`. -/
def reqB : Req :=
  { urlString := "https://img.example/?src=" ++ goodSrcB64 ++ "&fit=a&w=b",
    params := [("src", goodSrcB64), ("fit", "a"), ("w", "b")], accept := "" }

/-- A valid `.png` request with an avif-negotiating `Accept` header. -/
def reqPng : Req :=
  { urlString := "https://img.example/?src=aHR0cHM6Ly9zMy5tZWRpYWxvb3QuY29tL2EucG5n",
    params := [("src", "aHR0cHM6Ly9zMy5tZWRpYWxvb3QuY29tL2EucG5n")],
    accept := "image/avif,image/webp,image/apng" }

/-- A canned cached response used to exercise the edge-hit path. -/
def cachedResp : Resp :=
  { status := 200, statusText := "", headers := [("content-type", "image/webp")],
    body := .bytes [9, 9] }

/-- A world whose edge cache holds `cachedResp` under `reqValid`'s URL. -/
def worldEdgeHit : World :=
  { edge := fun s => if s = reqValid.urlString then some cachedResp else none,
    r2 := fun _ => none, transform := .throws }

/-- A world whose R2 bucket holds two bytes under `keyValid`. -/
def worldR2Hit : World :=
  { edge := fun _ => none,
    r2 := fun k => if k = keyValid then some [3, 4] else none,
    transform := .throws }

/-- The decoded `.png` source URL of `reqPng`. -/
def pngSrc : String := "https://s3.medialoot.com/a.png"

/-! ### Lemmas about the option object -/

theorem getOpt_setOpt (l : List (String × JsVal)) (k k' : String) (v : JsVal) :
    getOpt (setOpt l k' v) k = if k' = k then some v else getOpt l k := by
  induction l with
  | nil =>
    by_cases h : k' = k <;> simp [setOpt, getOpt, h]
  | cons kv rest ih =>
    obtain ⟨k0, v0⟩ := kv
    by_cases h0 : k0 = k'
    · subst h0
      by_cases h : k0 = k <;> simp [setOpt, getOpt, h]
    · by_cases h : k0 = k
      · subst h
        have : ¬ k' = k0 := fun e => h0 e.symm
        simp [setOpt, getOpt, h0, this]
      · simp [setOpt, getOpt, h0, h, ih]

theorem mem_setOpt (l : List (String × JsVal)) (k : String) (v : JsVal)
    (kv : String × JsVal) (h : kv ∈ setOpt l k v) : kv = (k, v) ∨ kv ∈ l := by
  induction l with
  | nil => simpa [setOpt] using h
  | cons kv0 rest ih =>
    obtain ⟨k0, v0⟩ := kv0
    by_cases h0 : k0 = k
    · subst h0
      simp only [setOpt, if_pos rfl] at h
      rcases List.mem_cons.mp h with h | h
      · exact Or.inl h
      · exact Or.inr (List.mem_cons_of_mem _ h)
    · simp only [setOpt, if_neg h0] at h
      rcases List.mem_cons.mp h with h | h
      · exact Or.inr (by simp [h])
      · rcases ih h with h | h
        · exact Or.inl h
        · exact Or.inr (List.mem_cons_of_mem _ h)

theorem getOpt_ite (c : Prop) [Decidable c] (A B : List (String × JsVal)) (k : String) :
    getOpt (if c then A else B) k = if c then getOpt A k else getOpt B k := by
  split <;> rfl

theorem mem_ite {α : Type} {c : Prop} [Decidable c] {A B : List α} {x : α}
    (h : x ∈ (if c then A else B)) : x ∈ A ∨ x ∈ B := by
  split at h
  · exact Or.inl h
  · exact Or.inr h

set_option maxHeartbeats 1000000 in
/-- Every property `resizeOptionsOf` ever creates is one of the five
recognized names. -/
theorem resizeOptions_names (ps : Params) (a : String) :
    ∀ kv ∈ resizeOptionsOf ps a, kv.1 ∈ optionNames := by
  intro kv hkv
  unfold resizeOptionsOf at hkv
  repeat'
    first
      | (rcases mem_ite hkv with hkv | hkv)
      | (rcases mem_setOpt _ _ _ _ hkv with rfl | hkv)
  all_goals first
    | (exact absurd hkv (List.not_mem_nil _))
    | (simp [optionNames])

/-- The final value of the `fit` property: the nonempty `fit` parameter
if given; otherwise `cover` when the `enlarge=true` alias fires (which it
does whenever `fit` is absent or empty); otherwise `undefined` for a
present-but-empty `fit`; otherwise absent. -/
theorem fit_final (ps : Params) (a : String) :
    getOpt (resizeOptionsOf ps a) "fit" =
      match getParam ps "fit" with
      | some v =>
        if v = "" then
          (if getParam ps "enlarge" = some "true" then some (some "cover") else some none)
        else some (some v)
      | none =>
        if getParam ps "enlarge" = some "true" then some (some "cover") else none := by
  cases hf : getParam ps "fit" with
  | none =>
    by_cases henl : getParam ps "enlarge" = some "true" <;>
      simp [resizeOptionsOf, hasParam, hf, henl, fitFalsy, getOpt_ite, getOpt_setOpt,
        jsOrUndefined, getOpt]
  | some v =>
    by_cases hv : v = ""
    · subst hv
      by_cases henl : getParam ps "enlarge" = some "true" <;>
        simp [resizeOptionsOf, hasParam, hf, henl, fitFalsy, getOpt_ite, getOpt_setOpt,
          jsOrUndefined, getOpt]
    · by_cases henl : getParam ps "enlarge" = some "true" <;>
        simp [resizeOptionsOf, hasParam, hf, henl, hv, fitFalsy, getOpt_ite, getOpt_setOpt,
          jsOrUndefined, getOpt]

/-- The final value of the `width` property is exactly the (possibly
`undefined`) copy of a present `w` parameter. -/
theorem width_final (ps : Params) (a : String) :
    getOpt (resizeOptionsOf ps a) "width" =
      match getParam ps "w" with
      | none => none
      | some v => some (jsOrUndefined v) := by
  cases hw : getParam ps "w" <;>
    simp [resizeOptionsOf, hasParam, hw, getOpt_ite, getOpt_setOpt, getOpt]

/-- The final value of the `height` property mirrors the `h` parameter. -/
theorem height_final (ps : Params) (a : String) :
    getOpt (resizeOptionsOf ps a) "height" =
      match getParam ps "h" with
      | none => none
      | some v => some (jsOrUndefined v) := by
  cases hh : getParam ps "h" <;>
    simp [resizeOptionsOf, hasParam, hh, getOpt_ite, getOpt_setOpt, getOpt]

/-- The final value of the `quality` property mirrors the `q` parameter. -/
theorem quality_final (ps : Params) (a : String) :
    getOpt (resizeOptionsOf ps a) "quality" =
      match getParam ps "q" with
      | none => none
      | some v => some (jsOrUndefined v) := by
  cases hq : getParam ps "q" <;>
    simp [resizeOptionsOf, hasParam, hq, getOpt_ite, getOpt_setOpt, getOpt]

/-- The final value of the `format` property is the Accept-negotiated
format, and it is absent when neither `image/avif` nor `image/webp`
matches. -/
theorem format_final (ps : Params) (a : String) :
    getOpt (resizeOptionsOf ps a) "format" =
      (if acceptsAvif a = true then some (some "avif")
       else if acceptsWebp a = true then some (some "webp")
       else none) := by
  cases h1 : acceptsAvif a <;> cases h2 : acceptsWebp a <;>
    simp [resizeOptionsOf, hasParam, h1, h2, getOpt_ite, getOpt_setOpt, getOpt]

/-- A pathname cannot end in `.png` and in `.gif` at once. -/
theorem png_gif_exclusive (p : String) :
    ¬(endsWithCI p ".png" = true ∧ endsWithCI p ".gif" = true) := by
  rintro ⟨h1, h2⟩
  unfold endsWithCI endsList at h1 h2
  simp only [decide_eq_true_eq] at h1 h2
  have e : (".png".data).length = (".gif".data).length := rfl
  rw [e] at h1
  exact absurd (h1.symm.trans h2) (by decide)

/-- C5: the served content type's format: a source pathname ending in
`.png` resolves to `png` and one ending in `.gif` to `gif`, regardless of
the `Accept` header; otherwise `avif` when the header matches
`image/avif`, else `webp` when it matches `image/webp`, else `jpeg`; and
the resolved format is always exactly one of the five. -/
theorem C5_format_resolution (accept pathname : String) :
    (endsWithCI pathname ".png" = true → resolvedType accept pathname = "png") ∧
    (endsWithCI pathname ".gif" = true → resolvedType accept pathname = "gif") ∧
    (endsWithCI pathname ".png" = false → endsWithCI pathname ".gif" = false →
      resolvedType accept pathname =
        (if acceptsAvif accept = true then "avif"
         else if acceptsWebp accept = true then "webp" else "jpeg")) ∧
    resolvedType accept pathname ∈ ["avif", "webp", "jpeg", "png", "gif"] := by
  refine ⟨?_, ?_, ?_, ?_⟩
  · intro h1
    have h2 : endsWithCI pathname ".gif" = false := by
      cases h2 : endsWithCI pathname ".gif"
      · rfl
      · exact absurd ⟨h1, h2⟩ (png_gif_exclusive pathname)
    simp [resolvedType, h1, h2]
  · intro h2
    simp [resolvedType, h2]
  · intro h1 h2
    simp [resolvedType, negotiatedType, h1, h2]
  · unfold resolvedType negotiatedType
    split_ifs <;> simp

/-- Witness for C5 at concrete inputs: `.PNG` beats an avif `Accept`
header, and a `.jpg` source with a webp `Accept` header yields webp. -/
theorem C5_format_resolution_witness :
    resolvedType "image/avif" "/a.PNG" = "png" ∧
    resolvedType "image/webp" "/b.jpg" = "webp" :=
  ⟨(C5_format_resolution "image/avif" "/a.PNG").1 rfl,
   ((C5_format_resolution "image/webp" "/b.jpg").2.2.1 rfl rfl).trans rfl⟩

/-- C4 counterexample: `w` present with an empty value does contribute a
key to `resizeOptions` — with value `undefined` — and `width:undefined`
to the serialized options key, contrary to the claim. -/
theorem C4_counterexample :
    hasParam [("src", goodSrcB64), ("w", "")] "w" = true ∧
    getParam [("src", goodSrcB64), ("w", "")] "w" = some "" ∧
    getOpt (resizeOptionsOf [("src", goodSrcB64), ("w", "")] "") "width" = some none ∧
    optionsKey (resizeOptionsOf [("src", goodSrcB64), ("w", "")] "") = "width:undefined" :=
  ⟨rfl, rfl, rfl, rfl⟩

/-- C4 (amended): each recognized key is present in `TransformOptions`
exactly when its query parameter is present (for `fit`, also when the
`enlarge=true` alias fires); a present-but-empty parameter contributes
the key with value `undefined` (which serializes as `key:undefined`),
not an absent key. -/
theorem C4_option_presence (ps : Params) (a : String) :
    (getOpt (resizeOptionsOf ps a) "width" =
      match getParam ps "w" with
      | none => none
      | some v => some (jsOrUndefined v)) ∧
    (getOpt (resizeOptionsOf ps a) "height" =
      match getParam ps "h" with
      | none => none
      | some v => some (jsOrUndefined v)) ∧
    (getOpt (resizeOptionsOf ps a) "quality" =
      match getParam ps "q" with
      | none => none
      | some v => some (jsOrUndefined v)) ∧
    (getOpt (resizeOptionsOf ps a) "fit" =
      match getParam ps "fit" with
      | some v =>
        if v = "" then
          (if getParam ps "enlarge" = some "true" then some (some "cover") else some none)
        else some (some v)
      | none =>
        if getParam ps "enlarge" = some "true" then some (some "cover") else none) :=
  ⟨width_final ps a, height_final ps a, quality_final ps a, fit_final ps a⟩

/-- C8 counterexample: with `fit` present (empty) and `enlarge=true`, the
alias fires anyway and sets `fit=cover`, contrary to "when the `fit`
parameter is present (with any value), the alias is not applied". -/
theorem C8_counterexample :
    hasParam [("fit", ""), ("enlarge", "true")] "fit" = true ∧
    getOpt (resizeOptionsOf [("fit", ""), ("enlarge", "true")] "") "fit"
      = some (some "cover") :=
  ⟨rfl, rfl⟩

/-- C8 (amended): the alias applies exactly when the copied `fit`
property is falsy — that is, when the `fit` parameter is absent *or
present with an empty value* — and `enlarge` equals `true`; a nonempty
`fit` parameter always wins. -/
theorem C8_enlarge_alias (ps : Params) (a : String) :
    (∀ v, getParam ps "fit" = some v → v ≠ "" →
      getOpt (resizeOptionsOf ps a) "fit" = some (some v)) ∧
    ((getParam ps "fit" = none ∨ getParam ps "fit" = some "") →
      getParam ps "enlarge" = some "true" →
      getOpt (resizeOptionsOf ps a) "fit" = some (some "cover")) ∧
    (getParam ps "fit" = none → getParam ps "enlarge" ≠ some "true" →
      getOpt (resizeOptionsOf ps a) "fit" = none) ∧
    (getParam ps "fit" = some "" → getParam ps "enlarge" ≠ some "true" →
      getOpt (resizeOptionsOf ps a) "fit" = some none) := by
  refine ⟨?_, ?_, ?_, ?_⟩
  · intro v hv hne
    rw [fit_final, hv]
    simp [hne]
  · rintro (hf | hf) henl <;> rw [fit_final, hf] <;> simp [henl]
  · intro hf henl
    rw [fit_final, hf]
    simp [henl]
  · intro hf henl
    rw [fit_final, hf]
    simp [henl]

/-- Witness for C8 at concrete inputs: nonempty `fit=pad` wins over
`enlarge=true`, and with `fit` absent plus `enlarge=true` the alias
fires. -/
theorem C8_enlarge_alias_witness :
    getOpt (resizeOptionsOf [("fit", "pad"), ("enlarge", "true")] "") "fit"
      = some (some "pad") ∧
    getOpt (resizeOptionsOf [("w", "3"), ("enlarge", "true")] "") "fit"
      = some (some "cover") :=
  ⟨(C8_enlarge_alias [("fit", "pad"), ("enlarge", "true")] "").1 "pad" rfl (by decide),
   (C8_enlarge_alias [("w", "3"), ("enlarge", "true")] "").2.1 (Or.inl rfl) rfl⟩

/-! ### Lemmas about the waterfall -/

/-- When validation passes, `handleRequest` is exactly the waterfall on
the decoded URL, derived options and resolved type. -/
theorem handleRequest_valid (req : Req) (env : Env) (w : World) (imageURL : String)
    (u : URLParts) (h1 : srcURL? req = some imageURL) (h2 : parseURL imageURL = some u)
    (h3 : allowedExtension u.pathname = true) (h4 : u.hostname = "s3.medialoot.com") :
    handleRequest req env w =
      waterfall req env w imageURL (resizeOptionsOf req.params req.accept)
        (resolvedType req.accept u.pathname) := by
  unfold srcURL? at h1
  unfold handleRequest
  cases hsrc : getParam req.params "src" with
  | none => rw [hsrc] at h1; exact absurd h1 (by simp)
  | some s =>
    rw [hsrc] at h1
    dsimp only at h1 ⊢
    by_cases hs : s = ""
    · rw [if_pos hs] at h1; exact absurd h1 (by simp)
    · rw [if_neg hs] at h1
      rw [if_neg hs]
      rw [h1]
      dsimp only
      rw [h2]
      dsimp only
      simp [h3, h4]

theorem waterfall_edge_hit (req : Req) (env : Env) (w : World) (imageURL : String)
    (ro : List (String × JsVal)) (type : String) (cached : Resp)
    (h : w.edge req.urlString = some cached) :
    waterfall req env w imageURL ro type =
      { result := .ok cached, edgeLookups := [req.urlString], r2Lookups := [],
        transformCalls := [], r2Writes := [], edgeWrites := [] } := by
  simp [waterfall, h]

theorem waterfall_r2_hit (req : Req) (env : Env) (w : World) (imageURL : String)
    (ro : List (String × JsVal)) (type : String) (img : Bytes)
    (he : w.edge req.urlString = none) (hr : w.r2 (cacheKeyOf imageURL ro) = some img) :
    waterfall req env w imageURL ro type =
      { result := .ok (imageResp env img type), edgeLookups := [req.urlString],
        r2Lookups := [cacheKeyOf imageURL ro], transformCalls := [],
        r2Writes := [], edgeWrites := [(req.urlString, imageResp env img type)] } := by
  simp [waterfall, he, hr]

theorem waterfall_throws (req : Req) (env : Env) (w : World) (imageURL : String)
    (ro : List (String × JsVal)) (type : String)
    (he : w.edge req.urlString = none) (hr : w.r2 (cacheKeyOf imageURL ro) = none)
    (ht : w.transform = .throws) :
    waterfall req env w imageURL ro type =
      { result := .ok notFoundResp, edgeLookups := [req.urlString],
        r2Lookups := [cacheKeyOf imageURL ro], transformCalls := [(imageURL, ro)],
        r2Writes := [], edgeWrites := [] } := by
  simp [waterfall, he, hr, ht]

theorem waterfall_completes (req : Req) (env : Env) (w : World) (imageURL : String)
    (ro : List (String × JsVal)) (type : String) (st : Nat) (body : Bytes)
    (he : w.edge req.urlString = none) (hr : w.r2 (cacheKeyOf imageURL ro) = none)
    (ht : w.transform = .completes st body) :
    waterfall req env w imageURL ro type =
      { result := .ok (imageResp env body type), edgeLookups := [req.urlString],
        r2Lookups := [cacheKeyOf imageURL ro], transformCalls := [(imageURL, ro)],
        r2Writes := [(cacheKeyOf imageURL ro, body)],
        edgeWrites := [(req.urlString, imageResp env body type)] } := by
  simp [waterfall, he, hr, ht, arrayBufferTruthy]

/-- Whatever the collaborators do, the waterfall looks the edge cache up
under the full original request URL. -/
theorem waterfall_edgeLookups (req : Req) (env : Env) (w : World) (imageURL : String)
    (ro : List (String × JsVal)) (type : String) :
    (waterfall req env w imageURL ro type).edgeLookups = [req.urlString] := by
  cases he : w.edge req.urlString
  · cases hr : w.r2 (cacheKeyOf imageURL ro)
    · cases ht : w.transform
      · rw [waterfall_throws req env w imageURL ro type he hr ht]
      · rw [waterfall_completes req env w imageURL ro type _ _ he hr ht]
    · rw [waterfall_r2_hit req env w imageURL ro type _ he hr]
  · rw [waterfall_edge_hit req env w imageURL ro type _ he]

/-- On an edge miss, the waterfall looks R2 up under the derived cache
key. -/
theorem waterfall_r2Lookups (req : Req) (env : Env) (w : World) (imageURL : String)
    (ro : List (String × JsVal)) (type : String) (he : w.edge req.urlString = none) :
    (waterfall req env w imageURL ro type).r2Lookups = [cacheKeyOf imageURL ro] := by
  cases hr : w.r2 (cacheKeyOf imageURL ro)
  · cases ht : w.transform
    · rw [waterfall_throws req env w imageURL ro type he hr ht]
    · rw [waterfall_completes req env w imageURL ro type _ _ he hr ht]
  · rw [waterfall_r2_hit req env w imageURL ro type _ he hr]

/-- The waterfall never reads the HTTP status of a completed
transformation response. -/
theorem waterfall_status_congr (req : Req) (env : Env) (w : World) (st1 st2 : Nat)
    (body : Bytes) (imageURL : String) (ro : List (String × JsVal)) (type : String) :
    waterfall req env { w with transform := .completes st1 body } imageURL ro type
      = waterfall req env { w with transform := .completes st2 body } imageURL ro type := by
  cases he : w.edge req.urlString
  · cases hr : w.r2 (cacheKeyOf imageURL ro)
    · rw [waterfall_completes req env { w with transform := .completes st1 body }
            imageURL ro type st1 body he hr rfl,
          waterfall_completes req env { w with transform := .completes st2 body }
            imageURL ro type st2 body he hr rfl]
    · rw [waterfall_r2_hit req env { w with transform := .completes st1 body }
            imageURL ro type _ he hr,
          waterfall_r2_hit req env { w with transform := .completes st2 body }
            imageURL ro type _ he hr]
  · rw [waterfall_edge_hit req env { w with transform := .completes st1 body }
          imageURL ro type _ he,
        waterfall_edge_hit req env { w with transform := .completes st2 body }
          imageURL ro type _ he]

/-! ### Claim theorems about the waterfall -/

/-- C6: the cache waterfall is strict first-hit-wins: the edge tier is
consulted first, keyed by the full original request URL; an edge hit is
returned verbatim with no R2 lookup, no transformation call and no
writes; on an edge miss R2 is consulted keyed by the cache key, and an R2
hit becomes the payload without invoking the transformation service. -/
theorem C6_waterfall_order (req : Req) (env : Env) (w : World) (imageURL : String)
    (u : URLParts) (h1 : srcURL? req = some imageURL) (h2 : parseURL imageURL = some u)
    (h3 : allowedExtension u.pathname = true) (h4 : u.hostname = "s3.medialoot.com") :
    (handleRequest req env w).edgeLookups = [req.urlString] ∧
    (∀ cached, w.edge req.urlString = some cached →
      handleRequest req env w =
        { result := .ok cached, edgeLookups := [req.urlString], r2Lookups := [],
          transformCalls := [], r2Writes := [], edgeWrites := [] }) ∧
    (w.edge req.urlString = none →
      (handleRequest req env w).r2Lookups
        = [cacheKeyOf imageURL (resizeOptionsOf req.params req.accept)] ∧
      ∀ img, w.r2 (cacheKeyOf imageURL (resizeOptionsOf req.params req.accept)) = some img →
        (handleRequest req env w).transformCalls = [] ∧
        (handleRequest req env w).result
          = .ok (imageResp env img (resolvedType req.accept u.pathname))) := by
  have hhr := handleRequest_valid req env w imageURL u h1 h2 h3 h4
  refine ⟨?_, ?_, ?_⟩
  · rw [hhr]
    exact waterfall_edgeLookups req env w imageURL _ _
  · intro cached hc
    rw [hhr]
    exact waterfall_edge_hit req env w imageURL _ _ cached hc
  · intro he
    refine ⟨?_, ?_⟩
    · rw [hhr]
      exact waterfall_r2Lookups req env w imageURL _ _ he
    · intro img hrimg
      rw [hhr, waterfall_r2_hit req env w imageURL _ _ img he hrimg]
      exact ⟨rfl, rfl⟩

/-- Witness for C6: a concrete edge hit is returned verbatim with no
further lookups, calls or writes. -/
theorem C6_waterfall_order_witness :
    handleRequest reqValid env0 worldEdgeHit =
      { result := .ok cachedResp, edgeLookups := [reqValid.urlString], r2Lookups := [],
        transformCalls := [], r2Writes := [], edgeWrites := [] } :=
  (C6_waterfall_order reqValid env0 worldEdgeHit goodSrc
    { hostname := "s3.medialoot.com", pathname := "/a.jpg" } rfl rfl rfl rfl).2.1
    cachedResp (by simp [worldEdgeHit])

/-- C7: when the transformation fetch itself throws, the response status
is 404 and neither tier is written. -/
theorem C7_transform_failure_404 (req : Req) (env : Env) (w : World) (imageURL : String)
    (u : URLParts) (h1 : srcURL? req = some imageURL) (h2 : parseURL imageURL = some u)
    (h3 : allowedExtension u.pathname = true) (h4 : u.hostname = "s3.medialoot.com")
    (he : w.edge req.urlString = none)
    (hr : w.r2 (cacheKeyOf imageURL (resizeOptionsOf req.params req.accept)) = none)
    (ht : w.transform = .throws) :
    (fetchResponse req env w).status = 404 ∧
    (handleRequest req env w).r2Writes = [] ∧
    (handleRequest req env w).edgeWrites = [] := by
  have hhr := handleRequest_valid req env w imageURL u h1 h2 h3 h4
  have hwf := waterfall_throws req env w imageURL (resizeOptionsOf req.params req.accept)
    (resolvedType req.accept u.pathname) he hr ht
  refine ⟨?_, ?_, ?_⟩
  · unfold fetchResponse
    rw [hhr, hwf]
    rfl
  · rw [hhr, hwf]
  · rw [hhr, hwf]

/-- Witness for C7 at a concrete valid request with cold caches and a
rejecting transformation fetch. -/
theorem C7_transform_failure_404_witness :
    (fetchResponse reqValid env0 world0).status = 404 ∧
    (handleRequest reqValid env0 world0).r2Writes = [] ∧
    (handleRequest reqValid env0 world0).edgeWrites = [] :=
  C7_transform_failure_404 reqValid env0 world0 goodSrc
    { hostname := "s3.medialoot.com", pathname := "/a.jpg" } rfl rfl rfl rfl rfl rfl rfl

/-- C9: the pipeline never inspects the HTTP status of the completed
transformation response — the handler's behaviour is identical for any
two statuses — and every completed response, whatever its status, has
its body written to R2 under the cache key and served back with 200. -/
theorem C9_upstream_status_ignored :
    (∀ (req : Req) (env : Env) (w : World) (st1 st2 : Nat) (body : Bytes),
      handleRequest req env { w with transform := .completes st1 body }
        = handleRequest req env { w with transform := .completes st2 body }) ∧
    (∀ (req : Req) (env : Env) (w : World) (imageURL : String) (u : URLParts)
        (st : Nat) (body : Bytes),
      srcURL? req = some imageURL → parseURL imageURL = some u →
      allowedExtension u.pathname = true → u.hostname = "s3.medialoot.com" →
      w.edge req.urlString = none →
      w.r2 (cacheKeyOf imageURL (resizeOptionsOf req.params req.accept)) = none →
      w.transform = .completes st body →
      (handleRequest req env w).r2Writes
        = [(cacheKeyOf imageURL (resizeOptionsOf req.params req.accept), body)] ∧
      (fetchResponse req env w).status = 200 ∧
      (fetchResponse req env w).body = .bytes body) := by
  constructor
  · intro req env w st1 st2 body
    unfold handleRequest
    cases getParam req.params "src" with
    | none => rfl
    | some s =>
      dsimp only
      by_cases hs : s = ""
      · rw [if_pos hs, if_pos hs]
      · rw [if_neg hs, if_neg hs]
        cases atob s with
        | none => rfl
        | some iu =>
          dsimp only
          cases parseURL iu with
          | none => rfl
          | some u =>
            dsimp only
            by_cases hext : allowedExtension u.pathname = false
            · rw [if_pos hext, if_pos hext]
            · rw [if_neg hext, if_neg hext]
              by_cases hh : u.hostname ≠ "s3.medialoot.com"
              · rw [if_pos hh, if_pos hh]
              · rw [if_neg hh, if_neg hh]
                exact waterfall_status_congr req env w st1 st2 body iu _ _
  · intro req env w imageURL u st body h1 h2 h3 h4 he hr ht
    have hhr := handleRequest_valid req env w imageURL u h1 h2 h3 h4
    have hwf := waterfall_completes req env w imageURL (resizeOptionsOf req.params req.accept)
      (resolvedType req.accept u.pathname) st body he hr ht
    refine ⟨?_, ?_, ?_⟩
    · rw [hhr, hwf]
    · unfold fetchResponse
      rw [hhr, hwf]
      rfl
    · unfold fetchResponse
      rw [hhr, hwf]
      rfl

/-- Witness for C9: a completed 502 response with body `[7]` is written to
R2 and served with 200. -/
theorem C9_upstream_status_ignored_witness :
    (handleRequest reqValid env0 worldByteBody).r2Writes = [(keyValid, [7])] ∧
    (fetchResponse reqValid env0 worldByteBody).status = 200 ∧
    (fetchResponse reqValid env0 worldByteBody).body = .bytes [7] :=
  C9_upstream_status_ignored.2 reqValid env0 worldByteBody goodSrc
    { hostname := "s3.medialoot.com", pathname := "/a.jpg" } 502 [7]
    rfl rfl rfl rfl rfl rfl rfl

/-- C10: for a `.png`/`.gif` source the extension override changes only
the served content type; the options forwarded to the transformation
service and the serialized cache key are exactly the ones derived from
the query string and the `Accept` negotiation, whose `format` entry keeps
the negotiated `avif`/`webp` value. -/
theorem C10_override_only_content_type (req : Req) (env : Env) (w : World)
    (imageURL : String) (u : URLParts)
    (h1 : srcURL? req = some imageURL) (h2 : parseURL imageURL = some u)
    (h3 : allowedExtension u.pathname = true) (h4 : u.hostname = "s3.medialoot.com")
    (hext : endsWithCI u.pathname ".png" = true ∨ endsWithCI u.pathname ".gif" = true) :
    (w.edge req.urlString = none →
      (handleRequest req env w).r2Lookups
        = [cacheKeyOf imageURL (resizeOptionsOf req.params req.accept)]) ∧
    (∀ st body, w.edge req.urlString = none →
      w.r2 (cacheKeyOf imageURL (resizeOptionsOf req.params req.accept)) = none →
      w.transform = .completes st body →
      (handleRequest req env w).transformCalls
        = [(imageURL, resizeOptionsOf req.params req.accept)] ∧
      (fetchResponse req env w).headers
        = respHeaders env
            (if endsWithCI u.pathname ".png" = true then "png" else "gif")) ∧
    (acceptsAvif req.accept = true →
      getOpt (resizeOptionsOf req.params req.accept) "format" = some (some "avif")) ∧
    (acceptsAvif req.accept = false → acceptsWebp req.accept = true →
      getOpt (resizeOptionsOf req.params req.accept) "format" = some (some "webp")) := by
  have hhr := handleRequest_valid req env w imageURL u h1 h2 h3 h4
  have htype : resolvedType req.accept u.pathname
      = (if endsWithCI u.pathname ".png" = true then "png" else "gif") := by
    rcases hext with hp | hg
    · have hgf : endsWithCI u.pathname ".gif" = false := by
        cases hgf : endsWithCI u.pathname ".gif"
        · rfl
        · exact absurd ⟨hp, hgf⟩ (png_gif_exclusive u.pathname)
      simp [resolvedType, hp, hgf]
    · have hpf : endsWithCI u.pathname ".png" = false := by
        cases hpf : endsWithCI u.pathname ".png"
        · rfl
        · exact absurd ⟨hpf, hg⟩ (png_gif_exclusive u.pathname)
      simp [resolvedType, hg, hpf]
  refine ⟨?_, ?_, ?_, ?_⟩
  · intro he
    rw [hhr]
    exact waterfall_r2Lookups req env w imageURL _ _ he
  · intro st body he hr ht
    have hwf := waterfall_completes req env w imageURL (resizeOptionsOf req.params req.accept)
      (resolvedType req.accept u.pathname) st body he hr ht
    refine ⟨?_, ?_⟩
    · rw [hhr, hwf]
    · unfold fetchResponse
      rw [hhr, hwf]
      dsimp [imageResp]
      rw [htype]
  · intro hav
    rw [format_final]
    simp [hav]
  · intro hav hwp
    rw [format_final]
    simp [hav, hwp]

/-- Witness for C10: the `.png` source with an avif `Accept` header
forwards `format: avif` to the transformation service while serving
`image/png` headers. -/
theorem C10_override_only_content_type_witness :
    (handleRequest reqPng env0 worldByteBody).transformCalls
      = [(pngSrc, [("format", some "avif")])] ∧
    (fetchResponse reqPng env0 worldByteBody).headers = respHeaders env0 "png" :=
  (C10_override_only_content_type reqPng env0 worldByteBody pngSrc
    { hostname := "s3.medialoot.com", pathname := "/a.png" } rfl rfl rfl rfl
    (Or.inl rfl)).2.1 502 [7] rfl rfl rfl

/-! ### Claim theorems evaluating the pipeline at concrete inputs -/

/-- C1 evidence: a present `src` that is not valid base64, or that
decodes to a non-URL, makes `atob`/`new URL` throw *outside* the
`try`/`catch` (lines 51 and 54 precede the `try` on line 55), so the
pipeline surfaces a 500 from the top-level handler, not the 400 the spec
prescribes; the 400-producing `catch` on line 63 is dead code. -/
theorem C1_invalid_src_is_500 :
    (handleRequest reqBadB64 env0 world0).result = .error "InvalidCharacterError" ∧
    (fetchResponse reqBadB64 env0 world0).status = 500 ∧
    (handleRequest reqBadURL env0 world0).result = .error "Invalid URL" ∧
    (fetchResponse reqBadURL env0 world0).status = 500 :=
  ⟨rfl, rfl, rfl, rfl⟩

/-- C3 evidence: an empty completed upstream body is an `ArrayBuffer`,
which is truthy, so `if (image)` schedules the R2 write of zero bytes and
`if (!image)` never throws: the pipeline persists the empty payload and
serves it with 200 instead of failing with a 500. -/
theorem C3_empty_body_cached_200 :
    (handleRequest reqValid env0 worldEmptyBody).r2Writes = [(keyValid, [])] ∧
    (handleRequest reqValid env0 worldEmptyBody).result
      ≠ .error "Unable to fetch image" ∧
    (fetchResponse reqValid env0 worldEmptyBody).status = 200 ∧
    (fetchResponse reqValid env0 worldEmptyBody).body = .bytes [] :=
  ⟨rfl, by decide, rfl, rfl⟩

/-- C2 counterexample: two valid requests for the same source whose `fit`
values differ (`fit=a-width:b` versus `fit=a&w=b`) serialize to the same
options key and hence the same cache key, because `key:value` pairs are
joined with unescaped `-`/`:` delimiters. -/
theorem C2_counterexample :
    reachesWaterfall reqA = true ∧ reachesWaterfall reqB = true ∧
    srcURL? reqA = srcURL? reqB ∧
    getParam reqA.params "fit" ≠ getParam reqB.params "fit" ∧
    getOpt (resizeOptionsOf reqA.params reqA.accept) "fit"
      ≠ getOpt (resizeOptionsOf reqB.params reqB.accept) "fit" ∧
    cacheKeyOf goodSrc (resizeOptionsOf reqA.params reqA.accept)
      = cacheKeyOf goodSrc (resizeOptionsOf reqB.params reqB.accept) :=
  ⟨rfl, rfl, rfl, by decide, by decide, rfl⟩

/-! ### Injectivity analysis of the cache key -/

/-- Splitting at a separator absent from both left parts is unambiguous. -/
theorem append_sep_inj (sep : Char) :
    ∀ (l1 l2 r1 r2 : List Char), sep ∉ l1 → sep ∉ l2 →
      l1 ++ sep :: r1 = l2 ++ sep :: r2 → l1 = l2 ∧ r1 = r2 := by
  intro l1
  induction l1 with
  | nil =>
    intro l2 r1 r2 h1 h2 h
    cases l2 with
    | nil => simpa using h
    | cons c cs =>
      simp only [List.nil_append, List.cons_append, List.cons.injEq] at h
      rcases h with ⟨hc, -⟩
      subst hc
      exact absurd (List.mem_cons_self _ _) h2
  | cons c cs ih =>
    intro l2 r1 r2 h1 h2 h
    cases l2 with
    | nil =>
      simp only [List.cons_append, List.nil_append, List.cons.injEq] at h
      rcases h with ⟨hc, -⟩
      subst hc
      exact absurd (List.mem_cons_self _ _) h1
    | cons d ds =>
      simp only [List.cons_append, List.cons.injEq] at h
      obtain ⟨rfl, h⟩ := h
      have hrec := ih ds r1 r2 (fun hm => h1 (List.mem_cons_of_mem _ hm))
        (fun hm => h2 (List.mem_cons_of_mem _ hm)) h
      exact ⟨by rw [hrec.1], hrec.2⟩

/-- The join `joinChar` is injective on lists of nonempty pieces that avoid the
separator. -/
theorem joinChar_inj : ∀ (ps qs : List (List Char)),
    (∀ p ∈ ps, p ≠ [] ∧ '-' ∉ p) → (∀ q ∈ qs, q ≠ [] ∧ '-' ∉ q) →
    joinChar ps = joinChar qs → ps = qs := by
  intro ps
  induction ps with
  | nil =>
    intro qs _ hq h
    cases qs with
    | nil => rfl
    | cons q qs' =>
      cases qs' with
      | nil => exact absurd h.symm (hq q (List.mem_cons_self _ _)).1
      | cons q2 qs'' =>
        replace h : ([] : List Char) = q ++ '-' :: joinChar (q2 :: qs'') := h
        rcases List.append_eq_nil.mp h.symm with ⟨-, h2⟩
        cases h2
  | cons p ps' ih =>
    intro qs hp hq h
    cases ps' with
    | nil =>
      cases qs with
      | nil => exact absurd h (hp p (List.mem_cons_self _ _)).1
      | cons q qs' =>
        cases qs' with
        | nil =>
          replace h : p = q := h
          rw [h]
        | cons q2 qs'' =>
          replace h : p = q ++ '-' :: joinChar (q2 :: qs'') := h
          have hmem : '-' ∈ p := by
            rw [h]
            exact List.mem_append_right _ (List.mem_cons_self _ _)
          exact absurd hmem (hp p (List.mem_cons_self _ _)).2
    | cons p2 ps'' =>
      cases qs with
      | nil =>
        replace h : p ++ '-' :: joinChar (p2 :: ps'') = [] := h
        rcases List.append_eq_nil.mp h with ⟨-, h2⟩
        cases h2
      | cons q qs' =>
        cases qs' with
        | nil =>
          replace h : p ++ '-' :: joinChar (p2 :: ps'') = q := h
          have hmem : '-' ∈ q := by
            rw [← h]
            exact List.mem_append_right _ (List.mem_cons_self _ _)
          exact absurd hmem (hq q (List.mem_cons_self _ _)).2
        | cons q2 qs'' =>
          replace h : p ++ '-' :: joinChar (p2 :: ps'')
              = q ++ '-' :: joinChar (q2 :: qs'') := h
          obtain ⟨he, hr⟩ := append_sep_inj '-' p q _ _
            (hp p (List.mem_cons_self _ _)).2 (hq q (List.mem_cons_self _ _)).2 h
          have hrec := ih (q2 :: qs'')
            (fun x hx => hp x (List.mem_cons_of_mem _ hx))
            (fun x hx => hq x (List.mem_cons_of_mem _ hx)) hr
          rw [he, hrec]

/-- The five recognized names contain neither `:` nor `-`. -/
theorem optionNames_clean : ∀ k ∈ optionNames, ':' ∉ k.data ∧ '-' ∉ k.data := by
  intro k hk
  fin_cases hk <;> exact ⟨by decide, by decide⟩

/-- A serialized `key:value` piece is nonempty and `-`-free when the key
is recognized and the value is a defined `-`-free string. -/
theorem pieceData_clean (kv : String × JsVal) (hk : kv.1 ∈ optionNames)
    (hv : ∃ v, kv.2 = some v ∧ '-' ∉ v.data) :
    pieceData kv ≠ [] ∧ '-' ∉ pieceData kv := by
  obtain ⟨k, w⟩ := kv
  obtain ⟨v, rfl, hvd⟩ := hv
  unfold pieceData
  have hc : (":" : String).data = [':'] := rfl
  simp only [String.data_append, hc, List.append_assoc, List.singleton_append]
  constructor
  · simp
  · intro hmem
    rcases List.mem_append.mp hmem with hm | hm
    · exact (optionNames_clean _ hk).2 hm
    · rcases List.mem_cons.mp hm with he | hm
      · exact absurd he (by decide)
      · exact hvd hm

/-- Serialized pieces determine their option entry when keys are
recognized and values are defined and `-`-free. -/
theorem pieceData_inj (kv1 kv2 : String × JsVal)
    (hk1 : kv1.1 ∈ optionNames) (hk2 : kv2.1 ∈ optionNames)
    (hv1 : ∃ v, kv1.2 = some v ∧ '-' ∉ v.data)
    (hv2 : ∃ v, kv2.2 = some v ∧ '-' ∉ v.data) :
    pieceData kv1 = pieceData kv2 → kv1 = kv2 := by
  obtain ⟨k1, w1⟩ := kv1
  obtain ⟨k2, w2⟩ := kv2
  obtain ⟨v1, rfl, -⟩ := hv1
  obtain ⟨v2, rfl, -⟩ := hv2
  intro h
  unfold pieceData at h
  have hc : (":" : String).data = [':'] := rfl
  simp only [String.data_append, hc, List.append_assoc, List.singleton_append] at h
  obtain ⟨hkeq, hveq⟩ := append_sep_inj ':' _ _ _ _
    (optionNames_clean _ hk1).1 (optionNames_clean _ hk2).1 h
  have hkey : k1 = k2 := String.ext hkeq
  have hval : v1 = v2 := String.ext hveq
  rw [hkey, hval]

/-- The dash join `joinStrings "-"` at the char-list level. -/
theorem joinStrings_data : ∀ (l : List String),
    (joinStrings "-" l).data = joinChar (l.map String.data) := by
  intro l
  induction l with
  | nil => rfl
  | cons p rest ih =>
    cases rest with
    | nil => rfl
    | cons q rest2 =>
      show (p ++ "-" ++ joinStrings "-" (q :: rest2)).data
          = p.data ++ '-' :: joinChar ((q :: rest2).map String.data)
      rw [String.data_append, String.data_append, ih]
      have hd : ("-" : String).data = ['-'] := rfl
      rw [hd]
      simp [List.append_assoc]

/-- The serialized options key, at the char-list level. -/
theorem optionsKey_data (l : List (String × JsVal)) :
    (optionsKey l).data = joinChar (l.map pieceData) := by
  unfold optionsKey
  rw [joinStrings_data]
  rw [List.map_map]
  rfl

/-- Serialization is injective on clean option lists. -/
theorem map_pieceData_inj : ∀ (l1 l2 : List (String × JsVal)),
    (∀ kv ∈ l1, kv.1 ∈ optionNames) → (∀ kv ∈ l2, kv.1 ∈ optionNames) →
    optsClean l1 → optsClean l2 →
    l1.map pieceData = l2.map pieceData → l1 = l2 := by
  intro l1
  induction l1 with
  | nil =>
    intro l2 _ _ _ _ h
    cases l2 with
    | nil => rfl
    | cons kv2 rest2 => simp at h
  | cons kv rest ih =>
    intro l2 hk1 hk2 hc1 hc2 h
    cases l2 with
    | nil => simp at h
    | cons kv2 rest2 =>
      simp only [List.map_cons, List.cons.injEq] at h
      have hhead := pieceData_inj kv kv2 (hk1 _ (List.mem_cons_self _ _))
        (hk2 _ (List.mem_cons_self _ _)) (hc1 _ (List.mem_cons_self _ _))
        (hc2 _ (List.mem_cons_self _ _)) h.1
      have htail := ih rest2 (fun x hx => hk1 x (List.mem_cons_of_mem _ hx))
        (fun x hx => hk2 x (List.mem_cons_of_mem _ hx))
        (fun x hx => hc1 x (List.mem_cons_of_mem _ hx))
        (fun x hx => hc2 x (List.mem_cons_of_mem _ hx)) h.2
      rw [hhead, htail]

/-- C2 (amended): the cache key is deterministic in `(src, params,
Accept)` and two requests with equal derived option lists but different
sources never collide; but injectivity over option values holds only for
clean options (all values defined and `-`-free) with equal sources — in
general, distinct option sets can collide because serialization
concatenates unescaped `key:value` pairs (see the counterexample). -/
theorem C2_cache_key (s1 s2 : String) (ps1 ps2 : Params) (a1 a2 : String) :
    (ps1 = ps2 → a1 = a2 →
      cacheKeyOf s1 (resizeOptionsOf ps1 a1) = cacheKeyOf s1 (resizeOptionsOf ps2 a2)) ∧
    (resizeOptionsOf ps1 a1 = resizeOptionsOf ps2 a2 → s1 ≠ s2 →
      cacheKeyOf s1 (resizeOptionsOf ps1 a1) ≠ cacheKeyOf s2 (resizeOptionsOf ps2 a2)) ∧
    (optsClean (resizeOptionsOf ps1 a1) → optsClean (resizeOptionsOf ps2 a2) →
      cacheKeyOf s1 (resizeOptionsOf ps1 a1) = cacheKeyOf s1 (resizeOptionsOf ps2 a2) →
      resizeOptionsOf ps1 a1 = resizeOptionsOf ps2 a2) := by
  refine ⟨?_, ?_, ?_⟩
  · intro h1 h2
    rw [h1, h2]
  · intro ho hne hkey
    rw [ho] at hkey
    unfold cacheKeyOf at hkey
    have hd := congrArg String.data hkey
    simp only [String.data_append] at hd
    have hcancel := List.append_cancel_right hd
    exact hne (String.ext (List.append_cancel_left hcancel))
  · intro hc1 hc2 hkey
    unfold cacheKeyOf at hkey
    have hd := congrArg String.data hkey
    simp only [String.data_append, List.append_assoc] at hd
    have ho : (optionsKey (resizeOptionsOf ps1 a1)).data
        = (optionsKey (resizeOptionsOf ps2 a2)).data :=
      List.append_cancel_left (List.append_cancel_left hd)
    rw [optionsKey_data, optionsKey_data] at ho
    have hclean1 : ∀ p ∈ (resizeOptionsOf ps1 a1).map pieceData, p ≠ [] ∧ '-' ∉ p := by
      intro p hp
      rcases List.mem_map.mp hp with ⟨kv, hkv, rfl⟩
      exact pieceData_clean kv (resizeOptions_names ps1 a1 kv hkv) (hc1 kv hkv)
    have hclean2 : ∀ p ∈ (resizeOptionsOf ps2 a2).map pieceData, p ≠ [] ∧ '-' ∉ p := by
      intro p hp
      rcases List.mem_map.mp hp with ⟨kv, hkv, rfl⟩
      exact pieceData_clean kv (resizeOptions_names ps2 a2 kv hkv) (hc2 kv hkv)
    have hmap := joinChar_inj _ _ hclean1 hclean2 ho
    exact map_pieceData_inj _ _ (resizeOptions_names ps1 a1) (resizeOptions_names ps2 a2)
      hc1 hc2 hmap

/-- Witness for C2 (amended): same options, different sources, different
keys. -/
theorem C2_cache_key_witness :
    cacheKeyOf "https://s3.medialoot.com/a.jpg" (resizeOptionsOf [("w", "3")] "")
      ≠ cacheKeyOf "https://s3.medialoot.com/b.jpg" (resizeOptionsOf [("w", "3")] "") :=
  (C2_cache_key "https://s3.medialoot.com/a.jpg" "https://s3.medialoot.com/b.jpg"
    [("w", "3")] [("w", "3")] "" "").2.1 rfl (by decide)

end CF
